import Mathlib

/-!
Shallow embedding of the palbuild PCPartPicker preview pipeline
(`pcpp_helper_files/pcpp_utility.py`, `pcpp_helper_files/pcpp_scraper.py`,
`pcpp_helper_files/pcpp_sql.py`, `pcpp_helper_files/pcpp_message_handler.py`,
`cogs/pcpp_cog.py`) together with theorems checking the specification
claims about it.

Strings are modelled as Lean `String`/`List Char`; Python regular
expressions are embedded as executable backtracking matchers over
`List Char`; fallible Python code (statements that can raise) is embedded
in `Except` with an inductive error type whose constructors stand for the
Python exception kinds actually reachable; the sqlite table is a list of
rows in insertion order; the `alru_cache` memoisations are association
lists in most-recently-used-first order.
-/

deriving instance DecidableEq for Except

set_option maxRecDepth 100000

namespace Palbuild

/-! ## Character classes and literal matching (Python `re`, `IGNORECASE`)

Every matcher takes the remaining input and returns `some (consumed, rest)`
on success (`consumed ++ rest` is the input) or `none` on failure.
Patterns are written lowercase; `litIC` compares case-insensitively,
mirroring `re.IGNORECASE`.
-/

def lstr (s : String) : List Char := s.toList

/-- Case-insensitive literal matcher: pattern given in lowercase. -/
def litIC : List Char → List Char → Option (List Char × List Char)
  | [], s => some ([], s)
  | _ :: _, [] => none
  | p :: ps, c :: cs =>
    if c.toLower = p then
      (litIC ps cs).map (fun mr => (c :: mr.1, mr.2))
    else
      none

/-- The class `[a-z]` under `re.IGNORECASE` (ASCII letters, either case). -/
def isAlphaIC (c : Char) : Bool := 'a' ≤ c.toLower && c.toLower ≤ 'z'

/-- The class `[a-z0-9]` under `re.IGNORECASE`. -/
def isAlnumIC (c : Char) : Bool := isAlphaIC c || ('0' ≤ c && c ≤ '9')

/-- Maximal munch of `[a-z0-9]*`. -/
def alnumMunch : List Char → (List Char × List Char)
  | [] => ([], [])
  | c :: cs =>
    if isAlnumIC c then
      let mr := alnumMunch cs
      (c :: mr.1, mr.2)
    else
      ([], c :: cs)

/-- The quantified class `[a-z0-9]+` (greedy; in this pattern family the
character after the quantifier is never in the class, so maximal munch is
exact). -/
def alnumPlus (s : List Char) : Option (List Char × List Char) :=
  let mr := alnumMunch s
  if mr.1.isEmpty then none else some mr

/-! ## The three URL regexes of `pcpp_utility.py` / `pcpp_scraper.py` -/

/-- The optional subgroup `(?:[a-z]{2}\.)?` followed by
`pcpartpicker\.com` — shared prefix of all three patterns. -/
def matchSubdomainDot (s : List Char) : Option (List Char × List Char) :=
  match s with
  | a :: b :: c :: rest =>
    if isAlphaIC a && isAlphaIC b && c = '.' then some ([a, b, c], rest) else none
  | _ => none

/-- The scheme `https?://` (greedy on the optional `s`). -/
def matchScheme (s : List Char) : Option (List Char × List Char) := do
  let (m1, r1) ← litIC (lstr "http") s
  let (m2, r2) ← litIC (lstr "s://") r1 <|> litIC (lstr "://") r1
  some (m1 ++ m2, r2)

/-- A sequence `(?:[a-z]{2}\.)?` then the given literal, with the regex
backtracking on the optional subdomain group. -/
def matchOptSubThen (lit : List Char) (s : List Char) :
    Option (List Char × List Char) :=
  (do
    let (m1, r1) ← matchSubdomainDot s
    let (m2, r2) ← litIC lit r1
    some (m1 ++ m2, r2)) <|> litIC lit s

/-- Path branch `list/(?!(?:by_merchant)/?)(?!$)[a-z0-9]+` of
`PCPP_VALID_URL_PATTERN`. -/
def matchListBranch (s : List Char) : Option (List Char × List Char) := do
  let (m1, r1) ← litIC (lstr "list/") s
  if (litIC (lstr "by_merchant") r1).isSome then none
  else if r1.isEmpty then none
  else do
    let (m2, r2) ← alnumPlus r1
    some (m1 ++ m2, r2)

/-- Path branch `user/[a-z0-9]+/saved/(?!$)(?:\#view=)?[a-z0-9]+`. -/
def matchUserBranch (s : List Char) : Option (List Char × List Char) := do
  let (m1, r1) ← litIC (lstr "user/") s
  let (m2, r2) ← alnumPlus r1
  let (m3, r3) ← litIC (lstr "/saved/") r2
  if r3.isEmpty then none
  else
    match (do
        let (m4, r4) ← litIC (lstr "#view=") r3
        let (m5, r5) ← alnumPlus r4
        some (m4 ++ m5, r5) : Option (List Char × List Char)) with
    | some (m45, r5) => some (m1 ++ m2 ++ m3 ++ m45, r5)
    | none => do
      let (m5, r5) ← alnumPlus r3
      some (m1 ++ m2 ++ m3 ++ m5, r5)

/-- Path branch `b/[a-z0-9]+` (completed builds). -/
def matchBuildBranch (s : List Char) : Option (List Char × List Char) := do
  let (m1, r1) ← litIC (lstr "b/") s
  let (m2, r2) ← alnumPlus r1
  some (m1 ++ m2, r2)

/-- Budget levels of the guide branch, in the source alternation order. -/
def budgetWords : List (List Char) :=
  [lstr "budget", lstr "entry-level", lstr "modest", lstr "great",
   lstr "excellent", lstr "enthusiast", lstr "magnificent", lstr "glorious"]

/-- Ordered alternation of literals (no word in this family is a prefix of
another, so first-match is exact). -/
def matchFirstWord : List (List Char) → List Char → Option (List Char × List Char)
  | [], _ => none
  | w :: ws, s => litIC w s <|> matchFirstWord ws s

/-- The brand part `(?:(?:amd|intel)-gaming(?:streaming)?|homeoffice)`. -/
def matchBrand (s : List Char) : Option (List Char × List Char) :=
  (do
    let (m1, r1) ← litIC (lstr "amd") s <|> litIC (lstr "intel") s
    let (m2, r2) ← litIC (lstr "-gaming") r1
    match litIC (lstr "streaming") r2 with
    | some (m3, r3) => some (m1 ++ m2 ++ m3, r3)
    | none => some (m1 ++ m2, r2)) <|> litIC (lstr "homeoffice") s

/-- Path branch `guide/[a-z0-9]+/(?:budget|...)-(?:...)-build`. -/
def matchGuideBranch (s : List Char) : Option (List Char × List Char) := do
  let (m1, r1) ← litIC (lstr "guide/") s
  let (m2, r2) ← alnumPlus r1
  let (m3, r3) ← litIC (lstr "/") r2
  let (m4, r4) ← matchFirstWord budgetWords r3
  let (m5, r5) ← litIC (lstr "-") r4
  let (m6, r6) ← matchBrand r5
  let (m7, r7) ← litIC (lstr "-build") r6
  some (m1 ++ m2 ++ m3 ++ m4 ++ m5 ++ m6 ++ m7, r7)

/-- Attempt of `PCPP_VALID_URL_PATTERN` anchored at the given position. -/
def matchValidFrom (s : List Char) : Option (List Char × List Char) := do
  let (m1, r1) ← matchScheme s
  let (m2, r2) ← matchOptSubThen (lstr "pcpartpicker.com/") r1
  let (m3, r3) ←
    matchListBranch r2 <|> matchUserBranch r2 <|> matchBuildBranch r2 <|>
      matchGuideBranch r2
  some (m1 ++ m2 ++ m3, r3)

/-- Tail `(?:(?:by_merchant/?)|(?![a-z0-9/]))` of `INVALID_URL_PATTERN`. -/
def matchInvalidTail (s : List Char) : Option (List Char × List Char) :=
  (do
    let (m1, r1) ← litIC (lstr "by_merchant") s
    match litIC (lstr "/") r1 with
    | some (m2, r2) => some (m1 ++ m2, r2)
    | none => some (m1, r1)) <|>
  (match s with
   | [] => some ([], [])
   | c :: _ => if isAlnumIC c || c = '/' then none else some ([], s))

/-- Attempt of `INVALID_URL_PATTERN`
(`https?://(?:[a-z]{2}\.)?pcpartpicker\.com/list/?(?:(?:by_merchant/?)|(?![a-z0-9/]))`)
anchored at the given position. -/
def matchInvalidFrom (s : List Char) : Option (List Char × List Char) := do
  let (m1, r1) ← matchScheme s
  let (m2, r2) ← matchOptSubThen (lstr "pcpartpicker.com/list") r1
  let (m3, r3) ←
    (do
      let (ma, ra) ← litIC (lstr "/") r2
      let (mb, rb) ← matchInvalidTail ra
      some (ma ++ mb, rb)) <|> matchInvalidTail r2
  some (m1 ++ m2 ++ m3, r3)

/-- Attempt of `DOMAIN_PATTERN`
(`https?://(?:[a-z]{2}\.)?pcpartpicker\.com`, used by `re.match`, i.e.
anchored at the start). -/
def matchDomainFrom (s : List Char) : Option (List Char × List Char) := do
  let (m1, r1) ← matchScheme s
  let (m2, r2) ← matchOptSubThen (lstr "pcpartpicker.com") r1
  some (m1 ++ m2, r2)

/-- Scan of `re.findall` for `PCPP_VALID_URL_PATTERN` (fuel-indexed; the
fuel is the input length, and a successful match always consumes at least
one character, so the fuel never runs out first). -/
def findAllValid : Nat → List Char → List String
  | 0, _ => []
  | _, [] => []
  | fuel + 1, s@(_ :: rest) =>
    match matchValidFrom s with
    | some (m, r) => String.mk m :: findAllValid fuel r
    | none => findAllValid fuel rest

/-- Scan of `re.search` for `INVALID_URL_PATTERN`: leftmost match. -/
def searchInvalid : Nat → List Char → Option String
  | 0, _ => none
  | _, [] => none
  | fuel + 1, s@(_ :: rest) =>
    match matchInvalidFrom s with
    | some (m, _) => some (String.mk m)
    | none => searchInvalid fuel rest

/-! ## `PCPPUtility.extract_unique_pcpp_urls` and `PCPPCog.pcpp_regex_search` -/

/-- Python `re.findall(PCPP_VALID_URL_PATTERN, content)`. -/
def findall_valid_urls (content : String) : List String :=
  findAllValid content.toList.length content.toList

/-- Python `re.search(INVALID_URL_PATTERN, content)` followed by `.group()`. -/
def search_invalid_url (content : String) : Option String :=
  searchInvalid content.toList.length content.toList

/-- Python `list(dict.fromkeys(xs))`: drop duplicates keeping the first
occurrence of each element. -/
def dedupFirstSeen : List String → List String → List String
  | [], _ => []
  | x :: rest, seen =>
    if x ∈ seen then dedupFirstSeen rest seen
    else x :: dedupFirstSeen rest (x :: seen)

/-- Effect of
`parse.urlunparse(parse.urlparse(url)._replace(scheme="https"))` on the
URLs matched by `PCPP_VALID_URL_PATTERN` (which always begin with an
`http`/`https` scheme, in any letter case): the scheme is replaced by
lowercase `https` and everything after `://` is kept verbatim. -/
def normalizeScheme (u : List Char) : List Char :=
  if (u.take 8).map Char.toLower = lstr "https://" then
    lstr "https://" ++ u.drop 8
  else if (u.take 7).map Char.toLower = lstr "http://" then
    lstr "https://" ++ u.drop 7
  else
    u

/-- Python `s.replace(pat, "")`: remove every non-overlapping occurrence of
`pat`, scanning left to right (fuel-indexed on the input length). -/
def removeAllSub (pat : List Char) : Nat → List Char → List Char
  | 0, s => s
  | _, [] => []
  | fuel + 1, c :: cs =>
    if pat.isPrefixOf (c :: cs) then
      removeAllSub pat fuel ((c :: cs).drop pat.length)
    else
      c :: removeAllSub pat fuel cs

/-- The per-URL normalisation of `extract_unique_pcpp_urls`: rewrite the
scheme to https, then `.replace("#view=", "")`. -/
def pyNormalizeUrl (u : String) : String :=
  let v := normalizeScheme u.toList
  String.mk (removeAllSub (lstr "#view=") v.length v)

/-- `PCPPUtility.extract_unique_pcpp_urls` from `pcpp_utility.py`: findall,
then dedup preserving first-seen order, then normalise each URL. -/
def extract_unique_pcpp_urls (content : String) : List String :=
  (dedupFirstSeen (findall_valid_urls content) []).map pyNormalizeUrl

/-- `PCPPCog.pcpp_regex_search` from `cogs/pcpp_cog.py`: the list of
extracted valid URLs paired with the first invalid-shaped link, if any. -/
def pcpp_regex_search (content : String) : List String × Option String :=
  (extract_unique_pcpp_urls content, search_invalid_url content)

/-! ## DOM model for `PCPPScraper` (`pcpp_helper_files/pcpp_scraper.py`)

Cells carry exactly the observations the scraper makes of them: the
`.text` of their content nodes, and for product/merchant cells the
structural facts the code branches on. `Option` marks places where the
Python code can dereference `None` or index out of range; the reachable
Python exceptions are the constructors of `PyErr`. -/

inductive PyErr
  /-- Python `IndexError: list index out of range`. -/
  | indexError
  /-- Python `AttributeError: \x27NoneType\x27 object has no attribute \x27get\x27`. -/
  | attrNoneGet
  /-- Python `AttributeError: \x27NoneType\x27 object has no attribute \x27strip\x27`. -/
  | attrNoneStrip
  /-- Python `AttributeError: \x27NoneType\x27 object has no attribute \x27text\x27`. -/
  | attrNoneText
  /-- Python `AttributeError: \x27NoneType\x27 object has no attribute \x27find\x27`. -/
  | attrNoneFind
  deriving DecidableEq, Repr

/-- Rendering of the exception by `f"HTML parsing error: {e}"`. -/
def PyErr.message : PyErr → String
  | .indexError => "list index out of range"
  | .attrNoneGet => "\x27NoneType\x27 object has no attribute \x27get\x27"
  | .attrNoneStrip => "\x27NoneType\x27 object has no attribute \x27strip\x27"
  | .attrNoneText => "\x27NoneType\x27 object has no attribute \x27text\x27"
  | .attrNoneFind => "\x27NoneType\x27 object has no attribute \x27find\x27"

/-- ASCII whitespace stripped by Python `str.strip()`. -/
def isPySpace (c : Char) : Bool :=
  c = ' ' || c = '\t' || c = '\n' || c = '\x0d' || c = '\x0b' || c = '\x0c'

/-- Python `str.strip()` (whitespace trim at both ends). -/
def pystrip (s : String) : String :=
  String.mk (((s.toList.dropWhile isPySpace).reverse.dropWhile isPySpace).reverse)

/-- Helper for Python `text.split(":")`: cut the character list at every
colon. -/
def splitOnColonAux : List Char → List Char → List (List Char)
  | [], acc => [acc.reverse]
  | c :: cs, acc =>
    if c = ':' then acc.reverse :: splitOnColonAux cs []
    else splitOnColonAux cs (c :: acc)

/-- Python `text.split(":")[-1]`: the text after the last colon (the whole
text when there is none; `split` never returns an empty list). -/
def lastAfterColon (s : String) : String :=
  String.mk ((splitOnColonAux s.toList []).getLastD [])

/-- Python negative indexing `xs[-i]` (for `i ≥ 1`): `none` models the
`IndexError` raised when the list is shorter than `i`. -/
def pyGetNeg (xs : List α) (i : Nat) : Option α :=
  if i ≤ xs.length then xs.get? (xs.length - i) else none

/-- A `td__component` cell: the `.text` of its content nodes. -/
structure ComponentCell where
  contents : List String
  deriving DecidableEq, Repr

/-- A `td__name` cell. `aTag` is `product_element.a` (outer `Option`) and
its `href` attribute (inner `Option`); the two `html` flags are the
substring tests on `str(product_element.contents)`. -/
structure ProductCell where
  contents : List String
  htmlHasAHref : Bool
  htmlHasViewCustomPart : Bool
  aTag : Option (Option String)
  deriving DecidableEq, Repr

/-- One content node of a `td__where` cell: `reprHasAlt` is the test
`"alt=" in str(elem)`, `img` is `elem.img` (outer `Option`) with its
`alt` attribute (inner `Option`), and `eqPurchasedStr` is the comparison
of the node itself with the string `"Purchased"`. -/
structure MerchNode where
  reprHasAlt : Bool
  img : Option (Option String)
  eqPurchasedStr : Bool
  deriving DecidableEq, Repr

/-- A `td__where` cell. -/
structure MerchantCell where
  contents : List MerchNode
  deriving DecidableEq, Repr

/-- A `td__price` cell: the `.text` of its content nodes. -/
structure PriceCell where
  contents : List String
  deriving DecidableEq, Repr

/-- A compatibility-note paragraph: the `.text` of its content nodes. -/
structure NoteCell where
  contents : List String
  deriving DecidableEq, Repr

/-- The country `select` element: the text of `find("option", selected=True)`
when that returns an option element. -/
structure CountrySelect where
  selectedOption : Option String
  deriving DecidableEq, Repr

/-- Everything `process_pcpartpicker_list` reads from the strained soup. -/
structure Page where
  component_elements : List ComponentCell
  product_elements : List ProductCell
  price_elements : List PriceCell
  merchant_elements : List MerchantCell
  wattage_element : Option String
  country_elements : Option CountrySelect
  notesProblem : List NoteCell
  notesWarning : List NoteCell
  notesInfo : List NoteCell
  deriving DecidableEq, Repr

def powerIcon : String := String.singleton (Char.ofNat 0x1F50C)

def earthIcon : String := String.singleton (Char.ofNat 0x1F30E)

def priceIcon : String := String.singleton (Char.ofNat 0x1F4B8)

/-! ## The scraper methods -/

/-- `PCPPScraper.extract_domain`: `DOMAIN_PATTERN.match(url)` then
`url[: domain_match.end()]`. `none` models the `AttributeError` raised on
`domain_match.end()` when the anchored match failed. -/
def extract_domain (url : String) : Option String :=
  (matchDomainFrom url.toList).map (fun mr => String.mk mr.1)

/-- `PCPPScraper.parse_product_without_link`: `product_name[1:-1], ""`. -/
def parse_product_without_link (product_name : String) : String × String :=
  (String.mk product_name.toList.tail.dropLast, "")

/-- `PCPPScraper.parse_product_name_and_link`. -/
def parse_product_name_and_link (product_element : ProductCell)
    (domain : String) : Except PyErr (String × String) :=
  match product_element.contents with
  | _ :: c1 :: _ =>
    let product_name := "[" ++ pystrip c1 ++ "]"
    if product_element.htmlHasAHref && !product_element.htmlHasViewCustomPart then
      match product_element.aTag with
      | none => throw .attrNoneGet
      | some none => throw .attrNoneStrip
      | some (some href) =>
        pure (product_name, "(" ++ domain ++ pystrip href ++ ")")
    else
      pure (parse_product_without_link product_name)
  | [c0] => pure (pystrip c0, "")
  | [] => throw .indexError

/-- `PCPPScraper.purchase_info`. -/
def purchase_info (price_contents : List String)
    (merchant_contents : List MerchNode) : Except PyErr String :=
  if merchant_contents.any (·.reprHasAlt) then
    match pyGetNeg price_contents 2 with
    | none => throw .indexError
    | some t2 =>
      let price := pystrip t2
      match merchant_contents.find? (·.reprHasAlt) with
      | none => pure (price ++ "None")
      | some elem =>
        match elem.img with
        | none => throw .attrNoneGet
        | some altOpt => pure (price ++ " @" ++ altOpt.getD "None")
  else
    if price_contents.length < 2 then pure "No Prices Available"
    else
      match pyGetNeg price_contents 2 with
      | none => throw .indexError
      | some t2 =>
        if t2 = "No Prices" then pure "No Prices Available"
        else
          match pyGetNeg merchant_contents 1 with
          | none => throw .indexError
          | some mlast =>
            match pyGetNeg price_contents 1 with
            | none => throw .indexError
            | some t1 =>
              if !mlast.eqPurchasedStr then pure (t1 ++ " (Custom Price)")
              else pure (t1 ++ " (Custom Price | Purchased)")

/-- The `zip`-driven loop body of `PCPPScraper.extract_product_details`
(`zip` stops at the shortest input list). -/
def productRows (domain : String) :
    List ComponentCell → List ProductCell → List PriceCell →
      List MerchantCell → Except PyErr (List String)
  | comp :: cs, prod :: ps, price :: prs, merch :: ms => do
    let component_type ←
      match comp.contents.get? 1 with
      | none => throw PyErr.indexError
      | some t => pure (pystrip t)
    let nl ← parse_product_name_and_link prod domain
    let purchase ← purchase_info price.contents merch.contents
    let rest ← productRows domain cs ps prs ms
    pure (("- **" ++ component_type ++ " ->** " ++ purchase ++ "\n" ++
      nl.1 ++ nl.2) :: rest)
  | _, _, _, _ => pure []

/-- `PCPPScraper.extract_product_details`. -/
def extract_product_details (domain : String)
    (component_elements : List ComponentCell)
    (product_elements : List ProductCell) (price_elements : List PriceCell)
    (merchant_elements : List MerchantCell) : Except PyErr String := do
  let details ← productRows domain component_elements product_elements
    price_elements merchant_elements
  pure ("**__PC PARTS__**\n" ++ String.intercalate "\n" details ++ "\n")

/-- One note paragraph of `PCPPScraper.extract_compatibility_notes`. -/
def noteLine (cell : NoteCell) : Except PyErr String :=
  match cell.contents with
  | t0 :: t1 :: _ =>
    let note_type := pystrip t0
    let note_text := pystrip t1
    pure (if note_type = "Problem:" then "- **Problem ->** " ++ note_text
      else if note_type = "Warning:" then "- **Warning ->** " ++ note_text
      else if note_type = "Note:" then "- **Note ->** " ++ note_text
      else if note_type = "Disclaimer:" then "- **Disclaimer ->** " ++ note_text
      else "")
  | _ => throw .indexError

/-- Traversal of the note cells of one class. -/
def noteLines : List NoteCell → Except PyErr (List String)
  | [] => pure []
  | cell :: rest => do
    let l ← noteLine cell
    let ls ← noteLines rest
    pure (l :: ls)

/-- `PCPPScraper.extract_compatibility_notes` (problem, warning, info note
classes, in that order). -/
def extract_compatibility_notes (p : Page) : Except PyErr String := do
  let ns ← noteLines (p.notesProblem ++ p.notesWarning ++ p.notesInfo)
  pure ("\n**__COMPATIBILITY NOTES__**\n" ++ String.intercalate "\n" ns ++ "\n\n")

/-- `PCPPScraper.format_power_consumption`: the wattage line is emitted
only when the product message is non-blank; the wattage is the text after
the last `:` of the anchor text. -/
def format_power_consumption (product_message : String)
    (wattage_element : Option String) : Except PyErr String :=
  if pystrip product_message ≠ "" then
    match wattage_element with
    | none => throw .attrNoneText
    | some w =>
      pure (powerIcon ++ "**Total Estimated Power ->** " ++
        pystrip (lastAfterColon w) ++ "\n")
  else pure ""

/-- `PCPPScraper.find_country`. -/
def find_country (country_elements : Option CountrySelect) :
    Except PyErr String :=
  match country_elements with
  | none => throw .attrNoneFind
  | some c =>
    match c.selectedOption with
    | none => throw .attrNoneText
    | some t => pure (earthIcon ++ "**Country ->** " ++ t ++ "\n")

/-- `PCPPScraper.format_total_price`: short-circuits to `"Empty"` on a
blank product message; otherwise reads `price_elements[-1].contents[0]`
(the first content node of the final price cell) and remaps the literal
`"Price"` to the no-price string. -/
def format_total_price (product_message : String)
    (price_elements : List PriceCell) : Except PyErr String :=
  if pystrip product_message = "" then pure "Empty"
  else
    match pyGetNeg price_elements 1 with
    | none => throw .indexError
    | some lastCell =>
      match lastCell.contents.get? 0 with
      | none => throw .indexError
      | some t0 =>
        let price := pystrip t0
        let price :=
          if price_elements.isEmpty || price = "Price" then "No Price Available"
          else price
        pure (priceIcon ++ "**Total Price ->** " ++ price ++
          "\n*After Rebates/Discounts/Taxes/Shipping*")

/-- Modelled from the spec words of claim C8, for comparison only: like
`format_total_price` but reading the text of the LAST content node of the
final price cell, as §4.3 step 4 of the spec describes it. -/
def format_total_price_specReading (product_message : String)
    (price_elements : List PriceCell) : Except PyErr String :=
  if pystrip product_message = "" then pure "Empty"
  else
    match pyGetNeg price_elements 1 with
    | none => throw .indexError
    | some lastCell =>
      match pyGetNeg lastCell.contents 1 with
      | none => throw .indexError
      | some t0 =>
        let price := pystrip t0
        let price :=
          if price_elements.isEmpty || price = "Price" then "No Price Available"
          else price
        pure (priceIcon ++ "**Total Price ->** " ++ price ++
          "\n*After Rebates/Discounts/Taxes/Shipping*")

/-! ## Fetching and retries

A network attempt is abstracted as a `FetchOutcome`: either the parsed
soup, or one of the failure kinds of `sessions.SessionManager.request`.
`fetch_html_content` translates the outcome exactly as its `except`
clauses do. Crucially, the `AsyncioTimeoutError` handler executes
`raise (f"...")` — raising a plain string — which in Python raises
`TypeError: exceptions must derive from BaseException`; so a timeout
surfaces as a `TypeError`, not as an `AsyncioTimeoutError`. The retry
loops of `fetch_list_url` and `strainer_list` are driven by an oracle
`Nat → FetchOutcome` giving the outcome of each successive attempt. -/

inductive FetchOutcome (α : Type)
  /-- the request returned a page that parses to `a` -/
  | success (a : α)
  /-- `asyncio.TimeoutError` -/
  | timeout
  /-- `aiohttp.ClientConnectionError` -/
  | connFail
  /-- `aiohttp.ClientPayloadError` -/
  | payloadErr
  /-- `aiohttp.ClientResponseError` -/
  | respErr
  /-- any other exception -/
  | unexpected
  deriving DecidableEq, Repr

inductive FetchErr
  /-- `TypeError` from `raise (f"Web server timeout. ...")`: the handler
  raises a string instead of an exception object. -/
  | typeErrorStrRaise
  /-- `AsyncioTimeoutError`: named by the retrying `except` clauses but
  never raised by `fetch_html_content` because of the string-raise slip. -/
  | asyncioTimeout
  /-- re-raised `ClientConnectionError` -/
  | connErr
  /-- re-raised `ClientPayloadError` -/
  | payloadErr
  /-- re-raised `ClientResponseError` -/
  | respErr
  /-- re-raised generic `Exception` -/
  | unexpectedErr
  /-- `AttributeError` escaping the soup post-processing in `fetch_list_url` -/
  | attrError
  /-- `AttributeError` on `domain_match.end()` in `extract_domain` -/
  | attrNoneEnd
  /-- `Exception("Failed to fetch ... after maximum retries")` -/
  | maxRetries
  deriving DecidableEq, Repr

/-- `PCPPScraper.fetch_html_content`: translate one request outcome
through the `except` clauses (timeout becomes a `TypeError`, the client
errors are re-raised with an enriched message, anything else becomes a
generic `Exception`). -/
def fetch_html_content : FetchOutcome α → Except FetchErr α
  | .success a => .ok a
  | .timeout => .error .typeErrorStrRaise
  | .connFail => .error .connErr
  | .payloadErr => .error .payloadErr
  | .respErr => .error .respErr
  | .unexpected => .error .unexpectedErr

/-- The retrying `except (AsyncioTimeoutError, ClientConnectionError)`
clause of `fetch_list_url` and `strainer_list`: exactly these two kinds
loop instead of raising. -/
def isRetriedErr : FetchErr → Bool
  | .asyncioTimeout => true
  | .connErr => true
  | _ => false

/-- The `for attempt in range(max_retries, 0, -1)` loop shared by
`fetch_list_url` and `strainer_list`: run the try-block on attempt `k`;
a retried error kind continues with the next attempt, every other error
is raised at once, and an exhausted loop raises the max-retries
exception. -/
def retryFetch (body : Nat → Except FetchErr α) : Nat → Nat → Except FetchErr α
  | _, 0 => .error .maxRetries
  | k, fuel + 1 =>
    match body k with
    | .ok a => .ok a
    | .error e => if isRetriedErr e then retryFetch body (k + 1) fuel else .error e

/-- The `span.header-actions` fragment fetched for a completed build:
`aTag` is `new_url_element.a` (outer `Option`) and its `href` attribute
(inner `Option`). -/
structure HeaderSpan where
  aTag : Option (Option String)
  deriving DecidableEq, Repr

/-- The soup of the completed-build page: `soup.find("span",
class_="header-actions")`. -/
structure BuildPage where
  headerSpan : Option HeaderSpan
  deriving DecidableEq, Repr

/-- `PCPPScraper.fetch_list_url` (max_retries = 3): resolve a completed
build to its list URL. An `AttributeError` in the post-processing is
caught by the generic `except Exception` clause and re-raised, so it is
not retried; a missing `href` attribute renders as the string `None`. -/
def fetch_list_url (domain : String)
    (outcomes : Nat → FetchOutcome BuildPage) : Except FetchErr String :=
  retryFetch (fun k => do
    let soup ← fetch_html_content (outcomes k)
    match soup.headerSpan with
    | none => throw FetchErr.attrError
    | some sp =>
      match sp.aTag with
      | none => throw FetchErr.attrError
      | some hrefOpt => pure (domain ++ hrefOpt.getD "None")) 0 3

/-- `PCPPScraper.strainer_list` (max_retries = 3). -/
def strainer_list (outcomes : Nat → FetchOutcome Page) : Except FetchErr Page :=
  retryFetch (fun k => fetch_html_content (outcomes k)) 0 3

/-- Python substring test `pat in s` (case-sensitive). -/
def containsSubAux (pat : List Char) : List Char → Bool
  | [] => pat.isEmpty
  | c :: cs => pat.isPrefixOf (c :: cs) || containsSubAux pat cs

/-- Python substring test `pat in s` on strings. -/
def containsSub (s pat : String) : Bool := containsSubAux pat.toList s.toList

/-! ## Assembling and bounding the summary -/

/-- The five blocks computed inside the `try` of
`process_pcpartpicker_list`, in source order. -/
structure ListingFields where
  product_message : String
  compatibility_message : String
  wattage_message : String
  country : String
  price_message : String
  deriving DecidableEq, Repr

/-- The `try` block of `process_pcpartpicker_list`: the five formatting
steps in order, the first raised exception aborting the rest. -/
def renderListing (domain : String) (p : Page) : Except PyErr ListingFields := do
  let product_message ← extract_product_details domain p.component_elements
    p.product_elements p.price_elements p.merchant_elements
  let compatibility_message ← extract_compatibility_notes p
  let wattage_message ← format_power_consumption product_message p.wattage_element
  let country ← find_country p.country_elements
  let price_message ← format_total_price product_message p.price_elements
  pure ⟨product_message, compatibility_message, wattage_message, country,
    price_message⟩

/-- The naive concatenation
`f"{product_message}{compatibility_message}{wattage_message}{country}{price_message}"`. -/
def concatListing (f : ListingFields) : String :=
  f.product_message ++ f.compatibility_message ++ f.wattage_message ++
    f.country ++ f.price_message

/-- The fixed missing-required-elements parse error string. -/
def missingElementsMsg : String :=
  "HTML parsing error due to missing required HTML elements"

/-- The fixed two-line over-4096 notice. -/
def overflowNotice : String :=
  "Error in generating a PCPP list preview.\n" ++
    "The returned string exceeds Discord\x27s max character limit of 4096 characters."

/-- The `all([...])` guard over the six required element groups (lists are
truthy when non-empty, `find` results when not `None`). -/
def allElementsPresent (p : Page) : Bool :=
  !p.component_elements.isEmpty && !p.product_elements.isEmpty &&
    !p.price_elements.isEmpty && !p.merchant_elements.isEmpty &&
    p.wattage_element.isSome && p.country_elements.isSome

/-- The part of `process_pcpartpicker_list` after the soup is fetched:
guard the element groups, render the blocks catching any exception into a
textual parse error, and replace an over-long concatenation wholesale by
the overflow notice. -/
def process_after_fetch (domain : String) (p : Page) : String :=
  if !allElementsPresent p then missingElementsMsg
  else
    match renderListing domain p with
    | .error e => "HTML parsing error: " ++ e.message
    | .ok f =>
      let pcpp_message := concatListing f
      if pcpp_message.length > 4096 then overflowNotice
      else pcpp_message

/-- `PCPPScraper.process_pcpartpicker_list`: extract the domain (raising
if the anchored domain match failed), resolve a completed-build URL when
the URL contains `pcpartpicker.com/b/`, fetch the strained list page, and
process it. `buildFetches`/`listFetches` are the attempt oracles of the
two fetch loops. -/
def process_pcpartpicker_list (url : String)
    (buildFetches : Nat → FetchOutcome BuildPage)
    (listFetches : Nat → FetchOutcome Page) : Except FetchErr String := do
  match extract_domain url with
  | none => throw FetchErr.attrNoneEnd
  | some domain => do
    let _newUrl ←
      if containsSub url "pcpartpicker.com/b/" then
        fetch_list_url domain buildFetches
      else pure url
    let soup ← strainer_list listFetches
    return process_after_fetch domain soup

/-! ## The `pcpp_message_ids` table, its counter and its lookup cache
(`pcpp_helper_files/pcpp_sql.py`)

`rows` is the table content in insertion order (`user_msg_id` is the
primary key, so it is unique in any state sqlite can reach).
`pcpp_user_message_count` is the in-memory class counter.  `findCache` is
the `alru_cache(maxsize=1024)` of `find_bot_msg_ids`, kept in
most-recently-used-first order; neither `insert_bot_msg_ids` nor
`delete_msg_ids` touches it, exactly as in the source. -/

structure MsgRow where
  user_msg_id : Nat
  pcpp_bot_msg_id : Nat
  invalid_msg_id : Nat
  channel_id : Nat
  deriving DecidableEq, Repr

/-- `((pcpp_bot_msg_id, invalid_msg_id), channel_id)` as returned by
`find_bot_msg_ids`. -/
abbrev FindResult := (Nat × Nat) × Nat

def MAX_USER_MESSAGE_ID_COUNT : Nat := 1024

/-- `maxsize` of the `alru_cache` on `find_bot_msg_ids`. -/
def FIND_CACHE_MAXSIZE : Nat := 1024

structure DbState where
  rows : List MsgRow
  pcpp_user_message_count : Nat
  findCache : List (Nat × FindResult)
  deriving DecidableEq, Repr

/-- The eviction statement
`DELETE FROM pcpp_message_ids WHERE user_msg_id = (SELECT user_msg_id FROM
pcpp_message_ids LIMIT 1);` — the unordered `LIMIT 1` subselect yields the
first stored row (lowest rowid, i.e. oldest insertion); the `DELETE`
removes every row carrying that key. -/
def deleteOldest (rows : List MsgRow) : List MsgRow :=
  match rows with
  | [] => rows
  | r :: _ => rows.filter (fun x => x.user_msg_id ≠ r.user_msg_id)

/-- `PCPPSQL.insert_bot_msg_ids` (happy path: both statements succeed):
evict the oldest row first when the counter has reached the maximum, then
insert when the counter leaves room, keeping the counter in step. -/
def insert_bot_msg_ids (st : DbState) (pcpp_message_id invalid_bot_message_id
    user_message_id channel_id : Nat) : DbState :=
  let st1 :=
    if st.pcpp_user_message_count ≥ MAX_USER_MESSAGE_ID_COUNT then
      { st with rows := deleteOldest st.rows
                pcpp_user_message_count := st.pcpp_user_message_count - 1 }
    else st
  if st1.pcpp_user_message_count ≤ MAX_USER_MESSAGE_ID_COUNT - 1 then
    { st1 with
        rows := st1.rows ++
          [⟨user_message_id, pcpp_message_id, invalid_bot_message_id, channel_id⟩]
        pcpp_user_message_count := st1.pcpp_user_message_count + 1 }
  else st1

/-- `PCPPSQL.delete_msg_ids` (happy path): delete the row for
`user_msg_id`. The lookup cache of `find_bot_msg_ids` is not invalidated
and the class counter is not decremented — neither appears in the
source function. -/
def delete_msg_ids (st : DbState) (user_msg_id : Nat) : DbState :=
  { st with rows := st.rows.filter (fun x => x.user_msg_id ≠ user_msg_id) }

/-- Lookup in the memoisation association list. -/
def cacheGet (c : List (Nat × FindResult)) (k : Nat) : Option FindResult :=
  (c.find? (fun e => e.1 = k)).map (fun e => e.2)

/-- A cache hit moves the entry to the front (most recently used). -/
def cachePromote (c : List (Nat × FindResult)) (k : Nat) (v : FindResult) :
    List (Nat × FindResult) :=
  (k, v) :: c.filter (fun e => e.1 ≠ k)

/-- A computed value is inserted at the front; beyond `maxsize` entries the
least recently used entry is dropped. -/
def cacheInsert (c : List (Nat × FindResult)) (k : Nat) (v : FindResult) :
    List (Nat × FindResult) :=
  ((k, v) :: c).take FIND_CACHE_MAXSIZE

/-- `PCPPSQL.find_bot_msg_ids` under its `alru_cache`: a cached key is
answered from the cache without touching the table; otherwise the table is
queried, `database_result[0]` raising `IndexError` when no row matches
(exceptions are not cached), and a successful result is memoised. -/
def find_bot_msg_ids (st : DbState) (user_msg_id : Nat) :
    Except PyErr FindResult × DbState :=
  match cacheGet st.findCache user_msg_id with
  | some v => (.ok v, { st with findCache := cachePromote st.findCache user_msg_id v })
  | none =>
    match st.rows.find? (fun r => r.user_msg_id = user_msg_id) with
    | none => (.error .indexError, st)
    | some row =>
      let v : FindResult := ((row.pcpp_bot_msg_id, row.invalid_msg_id), row.channel_id)
      (.ok v, { st with findCache := cacheInsert st.findCache user_msg_id v })

/-! ## The create path (`PCPPMessage.prepare_new_message` driven by
`PCPPCog.on_message`) -/

inductive ReplyKind
  /-- the real preview embed with its view, from `handle_valid_links` -/
  | preview (urls : List String)
  /-- placeholder `"No PCPP previews available."` -/
  | noPreviewPlaceholder
  /-- the real invalid-link warning embed, from `handle_invalid_links` -/
  | invalidWarning
  /-- placeholder `"No invalid PCPP links detected."` -/
  | noInvalidPlaceholder
  deriving DecidableEq, Repr

structure SentMsg where
  id : Nat
  kind : ReplyKind
  deriving DecidableEq, Repr

/-- Observable effects of one run of the create path: the bot replies sent
(in order) and the row handed to `insert_bot_msg_ids`, if any. -/
structure NewMessageEffects where
  replies : List SentMsg
  insertedRecord : Option MsgRow
  deriving DecidableEq, Repr

/-- `PCPPMessage.prepare_new_message`: nothing at all when neither URLs
nor an invalid link were found; otherwise reply with the preview (or the
no-preview placeholder), reply with the invalid-link warning (or the
no-invalid-links placeholder), and insert both bot message ids with the
user message id and channel id as one record. `nextBotId` numbers the
replies in sending order. -/
def prepare_new_message (userMsgId channelId nextBotId : Nat)
    (pcpp_urls : List String) (invalid_link : Option String) :
    NewMessageEffects :=
  if pcpp_urls.isEmpty && invalid_link.isNone then ⟨[], none⟩
  else
    let pcpp_message : SentMsg :=
      if !pcpp_urls.isEmpty then ⟨nextBotId, .preview pcpp_urls⟩
      else ⟨nextBotId, .noPreviewPlaceholder⟩
    let invalid_bot_message : SentMsg :=
      if invalid_link.isSome then ⟨nextBotId + 1, .invalidWarning⟩
      else ⟨nextBotId + 1, .noInvalidPlaceholder⟩
    ⟨[pcpp_message, invalid_bot_message],
      some ⟨userMsgId, pcpp_message.id, invalid_bot_message.id, channelId⟩⟩

/-- `PCPPCog.on_message` for a non-bot author: regex-search the content
and run the create path on the outcome. -/
def on_message_effects (userMsgId channelId nextBotId : Nat)
    (content : String) : NewMessageEffects :=
  let found := pcpp_regex_search content
  prepare_new_message userMsgId channelId nextBotId found.1 found.2

/-! ## Concrete fixtures used by witnesses and counterexamples -/

/-- A small well-formed strained page: one product row with a linked
product sold by a merchant, one note, wattage and country present. -/
def samplePage : Page :=
  ⟨[⟨["", "CPU"]⟩],
   [⟨["", "Ryzen 5"], true, false, some (some "/product/x1")⟩],
   [⟨["$100", "$100"]⟩],
   [⟨[⟨true, some (some "Amazon"), false⟩]⟩],
   some "Estimated Wattage: 300W",
   some ⟨some "United States"⟩,
   [⟨["Note:", "Check clearance"]⟩], [], []⟩

/-- A completed-build header fragment whose anchor carries a list href. -/
def sampleBuildPage : BuildPage := ⟨some ⟨some (some "/list/xyz")⟩⟩

/-- A page whose six required groups are all present but whose note cell
has a single content node, so note extraction raises `IndexError`. -/
def badNotePage : Page :=
  ⟨[⟨["", "CPU"]⟩],
   [⟨["", "Ryzen 5"], false, false, none⟩],
   [⟨["$100", "$100"]⟩],
   [⟨[⟨true, some (some "Amazon"), false⟩]⟩],
   some "Estimated Wattage: 300W",
   some ⟨some "United States"⟩,
   [⟨["Note:"]⟩], [], []⟩

/-- A page with every required element group missing. -/
def emptyPage : Page := ⟨[], [], [], [], none, none, [], [], []⟩

/-- A 4200-character country name, longer than the whole cap by itself. -/
def bigCountryName : String := String.mk (List.replicate 4200 'z')

/-- `samplePage` with a country name long enough that the concatenated
summary exceeds 4096 characters. -/
def oversizedPage : Page :=
  ⟨samplePage.component_elements, samplePage.product_elements,
   samplePage.price_elements, samplePage.merchant_elements,
   samplePage.wattage_element,
   some ⟨some bigCountryName⟩,
   samplePage.notesProblem, samplePage.notesWarning, samplePage.notesInfo⟩

/-- The five blocks `renderListing` produces on `oversizedPage`. -/
def oversizedFields : ListingFields :=
  match renderListing "https://pcpartpicker.com" oversizedPage with
  | .ok f => f
  | .error _ => ⟨"", "", "", "", ""⟩

/-! ## Claim C10 -/

/-- Claim C10: for every url that the anchored domain pattern does not
match at position zero, `process_pcpartpicker_list` raises (the
`AttributeError` of `extract_domain` dereferencing `None`) before any
fetch — for every possible outcome of both fetch oracles — so the
textual-result guarantee only holds under the precondition that the url
starts with the domain pattern. -/
theorem C10_domain_precondition (url : String)
    (buildFetches : Nat → FetchOutcome BuildPage)
    (listFetches : Nat → FetchOutcome Page)
    (h : matchDomainFrom url.toList = none) :
    process_pcpartpicker_list url buildFetches listFetches =
      Except.error FetchErr.attrNoneEnd := by
  have h2 : extract_domain url = none := by
    unfold extract_domain
    rw [h]
    rfl
  unfold process_pcpartpicker_list
  rw [h2]
  rfl

/-- Witness for C10 at the non-matching url `"https://example.com/list/a"`. -/
theorem C10_domain_precondition_witness :
    matchDomainFrom ("https://example.com/list/a").toList = none ∧
    process_pcpartpicker_list "https://example.com/list/a"
      (fun _ => FetchOutcome.unexpected) (fun _ => FetchOutcome.unexpected) =
      Except.error FetchErr.attrNoneEnd :=
  ⟨by decide,
   C10_domain_precondition "https://example.com/list/a"
     (fun _ => FetchOutcome.unexpected) (fun _ => FetchOutcome.unexpected)
     (by decide)⟩

/-! ## Claim C3 -/

/-- When the `user_msg_id` column is duplicate-free (it is the primary
key), the eviction statement deletes exactly the oldest row. -/
theorem deleteOldest_eq_tail (rows : List MsgRow)
    (h : (rows.map MsgRow.user_msg_id).Nodup) :
    deleteOldest rows = rows.tail := by
  cases rows with
  | nil => rfl
  | cons r rest =>
    have h1 : r.user_msg_id ∉ rest.map MsgRow.user_msg_id := by
      simp only [List.map_cons, List.nodup_cons] at h
      exact h.1
    have h2 : ∀ x ∈ rest, x.user_msg_id ≠ r.user_msg_id := by
      intro x hx he
      exact h1 (he ▸ List.mem_map_of_mem MsgRow.user_msg_id hx)
    simp only [deleteOldest, List.tail_cons]
    rw [List.filter_cons_of_neg (by simp)]
    rw [List.filter_eq_self]
    intro a ha
    simpa using h2 a ha

/-- The insert on a full (counter = 1024) well-keyed state: evict the
oldest row, append the new one, counter unchanged at 1024. -/
theorem insert_bot_msg_ids_full (st : DbState) (p i u c : Nat)
    (hfull : st.pcpp_user_message_count = 1024)
    (hnodup : (st.rows.map MsgRow.user_msg_id).Nodup) :
    insert_bot_msg_ids st p i u c =
      ⟨st.rows.tail ++ [⟨u, p, i, c⟩], 1024, st.findCache⟩ := by
  have h1 : st.pcpp_user_message_count ≥ MAX_USER_MESSAGE_ID_COUNT := by
    unfold MAX_USER_MESSAGE_ID_COUNT
    omega
  have h2 : st.pcpp_user_message_count - 1 ≤ MAX_USER_MESSAGE_ID_COUNT - 1 := by
    unfold MAX_USER_MESSAGE_ID_COUNT
    omega
  simp only [insert_bot_msg_ids, if_pos h1, deleteOldest_eq_tail st.rows hnodup,
    if_pos h2]
  rw [DbState.mk.injEq]
  refine ⟨rfl, by omega, rfl⟩

/-- The insert on a not-yet-full state: plain append, counter bumped. -/
theorem insert_bot_msg_ids_notfull (st : DbState) (p i u c : Nat)
    (hnotfull : st.pcpp_user_message_count < 1024) :
    insert_bot_msg_ids st p i u c =
      ⟨st.rows ++ [⟨u, p, i, c⟩], st.pcpp_user_message_count + 1, st.findCache⟩ := by
  have h1 : ¬ st.pcpp_user_message_count ≥ MAX_USER_MESSAGE_ID_COUNT := by
    unfold MAX_USER_MESSAGE_ID_COUNT
    omega
  have h2 : st.pcpp_user_message_count ≤ MAX_USER_MESSAGE_ID_COUNT - 1 := by
    unfold MAX_USER_MESSAGE_ID_COUNT
    omega
  simp only [insert_bot_msg_ids, if_neg h1, if_pos h2]

/-- Claim C3: starting from any state where the in-memory counter agrees
with the table (as the startup re-sync establishes) and the table is
within its bound, an insert keeps the row count at most 1024 and the
counter in step; when the table is full the oldest row (lowest insertion
order) is deleted and the new row appended, otherwise the new row is
simply appended. -/
theorem C3_capacity_eviction (st : DbState) (p i u c : Nat)
    (hcount : st.pcpp_user_message_count = st.rows.length)
    (hle : st.rows.length ≤ 1024)
    (hnodup : (st.rows.map MsgRow.user_msg_id).Nodup) :
    (insert_bot_msg_ids st p i u c).rows.length ≤ 1024 ∧
    (insert_bot_msg_ids st p i u c).pcpp_user_message_count =
      (insert_bot_msg_ids st p i u c).rows.length ∧
    (st.rows.length = 1024 →
      (insert_bot_msg_ids st p i u c).rows = st.rows.tail ++ [⟨u, p, i, c⟩]) ∧
    (st.rows.length < 1024 →
      (insert_bot_msg_ids st p i u c).rows = st.rows ++ [⟨u, p, i, c⟩]) := by
  by_cases hfull : st.rows.length = 1024
  · rw [insert_bot_msg_ids_full st p i u c (by omega) hnodup]
    have hlen : st.rows.tail.length = 1023 := by
      rw [List.length_tail, hfull]
    refine ⟨by simp [hlen], by simp [hlen], fun _ => rfl, fun hl => absurd hfull (by omega)⟩
  · have hlt : st.rows.length < 1024 := lt_of_le_of_ne hle hfull
    rw [insert_bot_msg_ids_notfull st p i u c (by omega)]
    refine ⟨by simp; omega, by simp [hcount], fun hf => absurd hf hfull, fun _ => rfl⟩

/-- Witness for C3 at the empty re-synced state. -/
theorem C3_capacity_eviction_witness :
    (insert_bot_msg_ids ⟨[], 0, []⟩ 10 11 1 5).rows.length ≤ 1024 ∧
    (insert_bot_msg_ids ⟨[], 0, []⟩ 10 11 1 5).pcpp_user_message_count =
      (insert_bot_msg_ids ⟨[], 0, []⟩ 10 11 1 5).rows.length ∧
    (([] : List MsgRow).length = 1024 →
      (insert_bot_msg_ids ⟨[], 0, []⟩ 10 11 1 5).rows =
        ([] : List MsgRow).tail ++ [⟨1, 10, 11, 5⟩]) ∧
    (([] : List MsgRow).length < 1024 →
      (insert_bot_msg_ids ⟨[], 0, []⟩ 10 11 1 5).rows = [] ++ [⟨1, 10, 11, 5⟩]) :=
  C3_capacity_eviction ⟨[], 0, []⟩ 10 11 1 5 (by decide) (by decide) (by decide)

/-! ## Claim C9 -/

/-- A store holding one record for user message 1, lookup cache empty. -/
def c9state : DbState := ⟨[⟨1, 10, 11, 5⟩], 1, []⟩

/-- Counterexample to claim C9: look up user message 1 (caching its
record), delete the record from the persistent store, and look it up
again: the lookup returns the previously stored record from the
`alru_cache` even though the table no longer holds any row for it — the
memoisation does go stale without any capacity eviction. -/
theorem C9_counterexample :
    (find_bot_msg_ids (delete_msg_ids (find_bot_msg_ids c9state 1).2 1) 1).1 =
      Except.ok ((10, 11), 5) ∧
    (delete_msg_ids (find_bot_msg_ids c9state 1).2 1).rows = [] := by
  refine ⟨by decide, by decide⟩

/-- Claim C9 as amended: `delete_msg_ids` does not invalidate the
`find_bot_msg_ids` memoisation, so after a deletion a lookup of any
cached user message id still returns the previously stored record,
although the store itself no longer has a row for the id. -/
theorem C9_stale_cache_amended (st : DbState) (id : Nat) (v : FindResult)
    (hc : cacheGet st.findCache id = some v) :
    (find_bot_msg_ids (delete_msg_ids st id) id).1 = Except.ok v ∧
    (delete_msg_ids st id).rows.find? (fun r => r.user_msg_id = id) = none := by
  constructor
  · simp [find_bot_msg_ids, delete_msg_ids, hc]
  · rw [List.find?_eq_none]
    intro x hx
    simp only [delete_msg_ids, List.mem_filter, decide_eq_true_eq] at hx
    simp [hx.2]

/-- Witness for C9 as amended, at a one-record store with the record
already cached. -/
theorem C9_stale_cache_amended_witness :
    (find_bot_msg_ids (delete_msg_ids ⟨[⟨7, 20, 21, 9⟩], 1, [(7, ((20, 21), 9))]⟩ 7) 7).1 =
      Except.ok ((20, 21), 9) ∧
    (delete_msg_ids (⟨[⟨7, 20, 21, 9⟩], 1, [(7, ((20, 21), 9))]⟩ : DbState) 7).rows.find?
      (fun r => r.user_msg_id = 7) = none :=
  C9_stale_cache_amended ⟨[⟨7, 20, 21, 9⟩], 1, [(7, ((20, 21), 9))]⟩ 7 ((20, 21), 9)
    (by decide)

/-! ## Claim C8 -/

/-- A final price cell whose first and last content nodes differ. -/
def priceCellC8 : PriceCell := ⟨["$111", "$999"]⟩

/-- Counterexample to claim C8: on a final price cell with content-node
texts `["$111", "$999"]` the code renders the total from the FIRST
content node (`$111`), not from the last content node (`$999`) that the
claim describes. -/
theorem C8_counterexample :
    format_total_price "parts" [priceCellC8] ≠
      format_total_price_specReading "parts" [priceCellC8] ∧
    format_total_price "parts" [priceCellC8] =
      Except.ok (priceIcon ++
        "**Total Price ->** $111\n*After Rebates/Discounts/Taxes/Shipping*") ∧
    format_total_price_specReading "parts" [priceCellC8] =
      Except.ok (priceIcon ++
        "**Total Price ->** $999\n*After Rebates/Discounts/Taxes/Shipping*") := by
  refine ⟨by decide, by decide, by decide⟩

/-- Negative-index access to the appended last element. -/
theorem pyGetNeg_one_concat (xs : List α) (x : α) : pyGetNeg (xs ++ [x]) 1 = some x := by
  unfold pyGetNeg
  rw [if_pos (by simp)]
  simp [List.get?_concat_length]

/-- Claim C8 as amended: the total-price line takes the text of the FIRST
content node of the final price cell, remapping the literal `"Price"` to
the no-price string; on a blank product message the wattage line is
omitted entirely and the total-price computation returns the literal
string `"Empty"`. -/
theorem C8_total_price_amended (msg : String) (cells : List PriceCell)
    (w : Option String) :
    (pystrip msg = "" →
      format_total_price msg cells = Except.ok "Empty" ∧
      format_power_consumption msg w = Except.ok "") ∧
    (∀ front lastCell t0 ts, pystrip msg ≠ "" → cells = front ++ [lastCell] →
      lastCell.contents = t0 :: ts →
      format_total_price msg cells =
        Except.ok (priceIcon ++ "**Total Price ->** " ++
          (if pystrip t0 = "Price" then "No Price Available" else pystrip t0) ++
          "\n*After Rebates/Discounts/Taxes/Shipping*")) := by
  constructor
  · intro hblank
    constructor
    · unfold format_total_price
      rw [if_pos hblank]
      rfl
    · unfold format_power_consumption
      rw [if_neg (by simp [hblank])]
      rfl
  · intro front lastCell t0 ts hmsg hcells hcont
    subst hcells
    unfold format_total_price
    rw [if_neg hmsg, pyGetNeg_one_concat]
    simp [hcont]
    rfl

/-- Witness for C8 as amended: the blank case at `" "` and the populated
case at a one-cell list. -/
theorem C8_total_price_amended_witness :
    (format_total_price " " [] = Except.ok "Empty" ∧
      format_power_consumption " " none = Except.ok "") ∧
    format_total_price "x" [⟨["$1"]⟩] =
      Except.ok (priceIcon ++ "**Total Price ->** " ++
        (if pystrip "$1" = "Price" then "No Price Available" else pystrip "$1") ++
        "\n*After Rebates/Discounts/Taxes/Shipping*") :=
  ⟨(C8_total_price_amended " " [] none).1 (by decide),
   (C8_total_price_amended "x" [⟨["$1"]⟩] none).2 [] ⟨["$1"]⟩ "$1" [] (by decide)
     rfl rfl⟩

/-! ## Claim C4 -/

/-- Claim C4 evaluated on the code (a code bug): a first-attempt timeout
surfaces immediately as the `TypeError` of the string-`raise` in
`fetch_html_content` — it is NOT retried, even though the second attempt
would have succeeded — while a first-attempt connection failure is
retried and succeeds on the second attempt; persistent connection
failures exhaust all 3 attempts; payload/response failures are re-raised
with no retry. The same holds in `fetch_list_url`. -/
theorem C4_retry_behaviour_eval :
    strainer_list
        (fun n => if n = 0 then FetchOutcome.timeout
          else FetchOutcome.success samplePage) =
      Except.error FetchErr.typeErrorStrRaise ∧
    strainer_list
        (fun n => if n = 0 then FetchOutcome.connFail
          else FetchOutcome.success samplePage) =
      Except.ok samplePage ∧
    strainer_list (fun _ => FetchOutcome.connFail) =
      Except.error FetchErr.maxRetries ∧
    strainer_list (fun _ => FetchOutcome.payloadErr) =
      Except.error FetchErr.payloadErr ∧
    strainer_list (fun _ => FetchOutcome.respErr) =
      Except.error FetchErr.respErr ∧
    fetch_list_url "https://pcpartpicker.com"
        (fun n => if n = 0 then FetchOutcome.timeout
          else FetchOutcome.success sampleBuildPage) =
      Except.error FetchErr.typeErrorStrRaise ∧
    fetch_list_url "https://pcpartpicker.com"
        (fun n => if n = 0 then FetchOutcome.connFail
          else FetchOutcome.success sampleBuildPage) =
      Except.ok "https://pcpartpicker.com/list/xyz" ∧
    fetch_list_url "https://pcpartpicker.com" (fun _ => FetchOutcome.payloadErr) =
      Except.error FetchErr.payloadErr := by
  refine ⟨by decide, by decide, by decide, by decide, by decide, by decide,
    by decide, by decide⟩

/-! ## Claim C2 -/

/-- Claim C2: for every new user message, when the regex search finds
neither valid URLs nor an invalid-shaped link the create path sends no
reply and inserts no record; otherwise it sends exactly two bot messages
— the preview or its no-preview placeholder first, the invalid-link
warning or its no-invalid-links placeholder second — and records both ids
together with the user message id and channel id as one record. -/
theorem C2_create_path (userMsgId channelId nextBotId : Nat) (content : String) :
    (pcpp_regex_search content = ([], none) →
      on_message_effects userMsgId channelId nextBotId content = ⟨[], none⟩) ∧
    (∀ urls invalid, pcpp_regex_search content = (urls, invalid) →
      urls ≠ [] ∨ invalid ≠ none →
      on_message_effects userMsgId channelId nextBotId content =
        ⟨[⟨nextBotId, if urls.isEmpty then ReplyKind.noPreviewPlaceholder
            else ReplyKind.preview urls⟩,
          ⟨nextBotId + 1, if invalid.isSome then ReplyKind.invalidWarning
            else ReplyKind.noInvalidPlaceholder⟩],
         some ⟨userMsgId, nextBotId, nextBotId + 1, channelId⟩⟩) := by
  constructor
  · intro h
    unfold on_message_effects
    rw [h]
    rfl
  · intro urls invalid h hne
    unfold on_message_effects
    rw [h]
    cases urls with
    | nil =>
      cases invalid with
      | none =>
        rcases hne with h1 | h1 <;> exact absurd rfl h1
      | some s => rfl
    | cons a as =>
      cases invalid with
      | none => rfl
      | some s => rfl

/-- Witness for C2: a plain-text message produces nothing; a message that
is one valid list URL produces the preview plus the no-invalid-links
placeholder and one record holding both reply ids. -/
theorem C2_create_path_witness :
    on_message_effects 50 60 70 "no links here" = ⟨[], none⟩ ∧
    on_message_effects 50 60 70 "https://pcpartpicker.com/list/abc123" =
      ⟨[⟨70, if (["https://pcpartpicker.com/list/abc123"] : List String).isEmpty
            then ReplyKind.noPreviewPlaceholder
            else ReplyKind.preview ["https://pcpartpicker.com/list/abc123"]⟩,
        ⟨71, if (none : Option String).isSome then ReplyKind.invalidWarning
            else ReplyKind.noInvalidPlaceholder⟩],
       some ⟨50, 70, 71, 60⟩⟩ :=
  ⟨(C2_create_path 50 60 70 "no links here").1 (by decide),
   (C2_create_path 50 60 70 "https://pcpartpicker.com/list/abc123").2
     ["https://pcpartpicker.com/list/abc123"] none (by decide)
     (Or.inl (by decide))⟩

/-! ## Claim C6 -/

/-- Claim C6: when any of the six required element groups is missing or
empty, processing returns the fixed missing-elements parse-error string
(no fields are extracted, no partial render); when the groups are present
and field extraction raises, the exception is caught and rendered as a
textual parse-error message (processing is a total function into
strings, so no exception propagates); and the guard fails exactly when
one of the six groups is empty or absent. -/
theorem C6_missing_elements (domain : String) (p : Page) :
    (allElementsPresent p = false →
      process_after_fetch domain p = missingElementsMsg) ∧
    (∀ e, allElementsPresent p = true → renderListing domain p = Except.error e →
      process_after_fetch domain p = "HTML parsing error: " ++ e.message) ∧
    (allElementsPresent p = false ↔
      p.component_elements = [] ∨ p.product_elements = [] ∨
        p.price_elements = [] ∨ p.merchant_elements = [] ∨
        p.wattage_element = none ∨ p.country_elements = none) := by
  refine ⟨?_, ?_, ?_⟩
  · intro h
    unfold process_after_fetch
    rw [h]
    rfl
  · intro e hall herr
    unfold process_after_fetch
    rw [hall, herr]
    rfl
  · obtain ⟨ce, pe, pr, me, we, co, n1, n2, n3⟩ := p
    simp only [allElementsPresent]
    cases ce <;> cases pe <;> cases pr <;> cases me <;> cases we <;> cases co <;>
      simp

/-! ## Claim C1 -/

theorem except_bind_ok (a : α) (f : α → Except ε β) :
    (Except.ok a >>= f : Except ε β) = f a := rfl

theorem except_bind_error (e : ε) (f : α → Except ε β) :
    (Except.error e >>= f : Except ε β) = Except.error e := rfl

/-- Every Python exception message reachable from the extraction path is
one of finitely many fixed short strings. -/
theorem pyErr_message_short (e : PyErr) : e.message.length ≤ 60 := by
  cases e <;> decide

/-- The post-fetch processing always returns at most 4096 characters,
whichever of its four return paths is taken. -/
theorem process_after_fetch_le (domain : String) (p : Page) :
    (process_after_fetch domain p).length ≤ 4096 := by
  unfold process_after_fetch
  cases hall : allElementsPresent p with
  | false =>
    show missingElementsMsg.length ≤ 4096
    decide
  | true =>
    rw [if_neg (by decide)]
    cases hr : renderListing domain p with
    | error e =>
      show ("HTML parsing error: " ++ e.message).length ≤ 4096
      rw [String.length_append]
      have h1 := pyErr_message_short e
      have h2 : ("HTML parsing error: ").length = 20 := rfl
      omega
    | ok f =>
      show (if (concatListing f).length > 4096 then overflowNotice
        else concatListing f).length ≤ 4096
      by_cases hlen : (concatListing f).length > 4096
      · rw [if_pos hlen]
        decide
      · rw [if_neg hlen]
        omega

/-- Claim C1: every summary string returned by
`process_pcpartpicker_list` has length at most 4096; and on the success
path the returned value is exactly the concatenation when it fits and
exactly the fixed two-line overflow notice when the concatenation exceeds
4096 characters — never a truncation. -/
theorem C1_summary_length_bound :
    (∀ url buildFetches listFetches s,
      process_pcpartpicker_list url buildFetches listFetches = Except.ok s →
      s.length ≤ 4096) ∧
    (∀ domain p f, allElementsPresent p = true →
      renderListing domain p = Except.ok f → 4096 < (concatListing f).length →
      process_after_fetch domain p = overflowNotice) ∧
    (∀ domain p f, allElementsPresent p = true →
      renderListing domain p = Except.ok f → (concatListing f).length ≤ 4096 →
      process_after_fetch domain p = concatListing f) := by
  refine ⟨?_, ?_, ?_⟩
  · intro url b l s h
    unfold process_pcpartpicker_list at h
    cases hdom : extract_domain url with
    | none =>
      rw [hdom] at h
      simp at h
    | some domain =>
      rw [hdom] at h
      simp only [] at h
      have main : ∀ s2, ((do
          let soup ← strainer_list l
          pure (process_after_fetch domain soup) : Except FetchErr String) =
            Except.ok s2) → s2.length ≤ 4096 := by
        intro s2 h2
        cases hsl : strainer_list l with
        | error e =>
          rw [hsl, except_bind_error] at h2
          simp at h2
        | ok page =>
          rw [hsl, except_bind_ok] at h2
          have hs : s2 = process_after_fetch domain page := by
            simp only [pure, Except.pure, Except.ok.injEq] at h2
            exact h2.symm
          rw [hs]
          exact process_after_fetch_le domain page
      cases hb : containsSub url "pcpartpicker.com/b/" with
      | true =>
        rw [hb, if_pos rfl] at h
        cases hfu : fetch_list_url domain b with
        | error e =>
          rw [hfu, except_bind_error] at h
          simp at h
        | ok v =>
          rw [hfu, except_bind_ok] at h
          exact main s h
      | false =>
        rw [hb, if_neg (by simp)] at h
        exact main s h
  · intro domain p f hall hr hlen
    unfold process_after_fetch
    rw [hall, if_neg (by decide), hr]
    show (if (concatListing f).length > 4096 then overflowNotice
      else concatListing f) = overflowNotice
    rw [if_pos hlen]
  · intro domain p f hall hr hlen
    unfold process_after_fetch
    rw [hall, if_neg (by decide), hr]
    show (if (concatListing f).length > 4096 then overflowNotice
      else concatListing f) = concatListing f
    rw [if_neg (by omega)]

/-- The summary the pipeline produces on `samplePage`. -/
def sampleSummary : String :=
  process_after_fetch "https://pcpartpicker.com" samplePage

/-- The country block rendered from `oversizedPage` carries the long
country name, so the concatenated rendering exceeds the cap. -/
theorem oversized_concat_big :
    4096 < (concatListing oversizedFields).length := by
  have hc : oversizedFields.country =
      earthIcon ++ "**Country ->** " ++ bigCountryName ++ "\n" := rfl
  have hbig : bigCountryName.length = 4200 := by
    show (String.mk (List.replicate 4200 'z')).length = 4200
    rw [String.length_mk, List.length_replicate]
  unfold concatListing
  simp only [String.length_append, hc, hbig]
  omega

/-- Witness for C1: a successful pipeline run on `samplePage` stays within
the bound, and on `oversizedPage` (whose concatenation exceeds 4096
characters) the result is exactly the overflow notice. -/
theorem C1_summary_length_bound_witness :
    sampleSummary.length ≤ 4096 ∧
    process_after_fetch "https://pcpartpicker.com" oversizedPage =
      overflowNotice :=
  ⟨C1_summary_length_bound.1 "https://pcpartpicker.com/list/abc123"
      (fun _ => FetchOutcome.unexpected) (fun _ => FetchOutcome.success samplePage)
      sampleSummary (by decide),
   C1_summary_length_bound.2.1 "https://pcpartpicker.com" oversizedPage
      oversizedFields (by decide) (by rfl) oversized_concat_big⟩

/-! ## Claim C7 -/

def schemeVariant (secure : Bool) : String :=
  if secure then "https://" else "http://"

def subVariant : Fin 3 → String
  | 0 => ""
  | 1 => "uk."
  | 2 => "de."

/-- The `list/by_merchant` URL shape, over scheme, optional two-letter
subdomain and optional trailing slash. -/
def byMerchantUrl (secure : Bool) (sub : Fin 3) (slash : Bool) : String :=
  schemeVariant secure ++ subVariant sub ++ "pcpartpicker.com/list/by_merchant" ++
    (if slash then "/" else "")

/-- The bare `list/` URL shape (no identifier). -/
def bareListUrl (secure : Bool) (sub : Fin 3) (slash : Bool) : String :=
  schemeVariant secure ++ subVariant sub ++ "pcpartpicker.com/list" ++
    (if slash then "/" else "")

/-- Claim C7: every `list/by_merchant`-shaped and every bare `list/`-shaped
URL — alone as the message or embedded in surrounding text — is excluded
from the valid-URL extraction (so it is never handed to the scraper) and
is found by the invalid-link pattern, so the regex search yields the
invalid-link marker for the user-facing warning. -/
theorem C7_invalid_shapes :
    ∀ (secure : Bool) (sub : Fin 3) (slash : Bool),
      (pcpp_regex_search (byMerchantUrl secure sub slash)).1 = [] ∧
      ((pcpp_regex_search (byMerchantUrl secure sub slash)).2).isSome = true ∧
      (pcpp_regex_search (bareListUrl secure sub slash)).1 = [] ∧
      ((pcpp_regex_search (bareListUrl secure sub slash)).2).isSome = true ∧
      (pcpp_regex_search ("see " ++ byMerchantUrl secure sub slash ++ " ok")).1 =
        [] ∧
      ((pcpp_regex_search ("see " ++ byMerchantUrl secure sub slash ++ " ok")).2).isSome =
        true ∧
      (pcpp_regex_search ("see " ++ bareListUrl secure sub slash ++ " ok")).1 =
        [] ∧
      ((pcpp_regex_search ("see " ++ bareListUrl secure sub slash ++ " ok")).2).isSome =
        true := by
  decide

/-! ## Claim C5 -/

/-- The same list linked once over http and once over https. -/
def dupSchemeMessage : String :=
  "http://pcpartpicker.com/list/abc123 https://pcpartpicker.com/list/abc123"

/-- Counterexample to claim C5: deduplication is applied to the raw
matched URLs BEFORE normalisation, so two matches differing only in
scheme both survive and normalise to the same string — the returned list
contains two equal normalised URLs. -/
theorem C5_counterexample :
    extract_unique_pcpp_urls dupSchemeMessage =
      ["https://pcpartpicker.com/list/abc123",
       "https://pcpartpicker.com/list/abc123"] ∧
    ¬ (extract_unique_pcpp_urls dupSchemeMessage).Nodup := by
  refine ⟨by decide, by decide⟩

/-- `dict.fromkeys` keeps a subsequence of the input (first-seen order is
preserved). -/
theorem dedupFirstSeen_sublist (xs seen : List String) :
    (dedupFirstSeen xs seen).Sublist xs := by
  induction xs generalizing seen with
  | nil => simp [dedupFirstSeen]
  | cons x rest ih =>
    by_cases hx : x ∈ seen
    · simp only [dedupFirstSeen, if_pos hx]
      exact (ih seen).cons x
    · simp only [dedupFirstSeen, if_neg hx]
      exact (ih (x :: seen)).cons₂ x

/-- Membership after `dict.fromkeys`: exactly the input elements not
already seen. -/
theorem dedupFirstSeen_mem (xs : List String) (y : String) :
    ∀ seen, y ∈ dedupFirstSeen xs seen ↔ y ∈ xs ∧ y ∉ seen := by
  induction xs with
  | nil => intro seen; simp [dedupFirstSeen]
  | cons x rest ih =>
    intro seen
    by_cases hx : x ∈ seen
    · rw [dedupFirstSeen, if_pos hx, ih seen]
      simp only [List.mem_cons]
      constructor
      · rintro ⟨hy, hns⟩
        exact ⟨Or.inr hy, hns⟩
      · rintro ⟨hy | hy, hns⟩
        · exact absurd (hy ▸ hx) hns
        · exact ⟨hy, hns⟩
    · rw [dedupFirstSeen, if_neg hx]
      simp only [List.mem_cons, ih (x :: seen), List.mem_cons]
      constructor
      · rintro (rfl | ⟨hy, hns⟩)
        · exact ⟨Or.inl rfl, hx⟩
        · exact ⟨Or.inr hy, fun hs => hns (Or.inr hs)⟩
      · rintro ⟨rfl | hy, hns⟩
        · exact Or.inl rfl
        · by_cases hxy : y = x
          · exact Or.inl hxy
          · exact Or.inr ⟨hy, fun hs => hs.elim hxy hns⟩

theorem option_bind_some (a : α) (f : α → Option β) :
    (some a >>= f : Option β) = f a := rfl

theorem option_bind_none (f : α → Option β) :
    ((none : Option α) >>= f) = none := rfl

/-- A successful literal match consumes exactly a case-variant of the
pattern. -/
theorem litIC_append (p : List Char) :
    ∀ s m r, litIC p s = some (m, r) →
      s = m ++ r ∧ m.map Char.toLower = p := by
  induction p with
  | nil =>
    intro s m r h
    have h2 : some (([] : List Char), s) = some (m, r) := h
    simp only [Option.some.injEq, Prod.mk.injEq] at h2
    obtain ⟨hm, hr⟩ := h2
    subst hm
    subst hr
    exact ⟨rfl, rfl⟩
  | cons pc ps ih =>
    intro s m r h
    cases s with
    | nil => simp [litIC] at h
    | cons c cs =>
      replace h : (if c.toLower = pc then
          (litIC ps cs).map (fun mr => (c :: mr.1, mr.2))
        else none) = some (m, r) := h
      by_cases hc : c.toLower = pc
      · rw [if_pos hc] at h
        cases hlit : litIC ps cs with
        | none =>
          rw [hlit] at h
          simp at h
        | some mr =>
          obtain ⟨m2, r2⟩ := mr
          rw [hlit] at h
          replace h : some (c :: m2, r2) = some (m, r) := h
          simp only [Option.some.injEq, Prod.mk.injEq] at h
          obtain ⟨hm, hr⟩ := h
          obtain ⟨hs, hmap⟩ := ih cs m2 r2 hlit
          subst hm
          subst hr
          constructor
          · rw [List.cons_append, ← hs]
          · rw [List.map_cons, hc, hmap]
      · rw [if_neg hc] at h
        simp at h

/-- A successful scheme match consumes a case-variant of `https://` or of
`http://`. -/
theorem matchScheme_shape (s m r : List Char)
    (h : matchScheme s = some (m, r)) :
    s = m ++ r ∧ (m.map Char.toLower = lstr "https://" ∨
      m.map Char.toLower = lstr "http://") := by
  unfold matchScheme at h
  cases h1 : litIC (lstr "http") s with
  | none =>
    rw [h1] at h
    simp at h
  | some mr1 =>
    obtain ⟨m1, r1⟩ := mr1
    rw [h1, option_bind_some] at h
    replace h : ((litIC (lstr "s://") r1 <|> litIC (lstr "://") r1) >>=
        fun mr2 => some (m1 ++ mr2.1, mr2.2)) = some (m, r) := h
    obtain ⟨hs1, hmap1⟩ := litIC_append _ s m1 r1 h1
    cases h2a : litIC (lstr "s://") r1 with
    | some mr2 =>
      obtain ⟨m2, r2⟩ := mr2
      have h2 : (litIC (lstr "s://") r1 <|> litIC (lstr "://") r1) =
          some (m2, r2) := by
        rw [h2a]
        rfl
      rw [h2, option_bind_some] at h
      simp only [Option.some.injEq, Prod.mk.injEq] at h
      obtain ⟨hm, hr⟩ := h
      obtain ⟨hs2, hmap2⟩ := litIC_append _ r1 m2 r2 h2a
      subst hm
      subst hr
      refine ⟨by rw [hs1, hs2, List.append_assoc], Or.inl ?_⟩
      rw [List.map_append, hmap1, hmap2]
      rfl
    | none =>
      have h2 : (litIC (lstr "s://") r1 <|> litIC (lstr "://") r1) =
          litIC (lstr "://") r1 := by
        rw [h2a]
        rfl
      rw [h2] at h
      cases h2b : litIC (lstr "://") r1 with
      | none =>
        rw [h2b] at h
        simp at h
      | some mr2 =>
        obtain ⟨m2, r2⟩ := mr2
        rw [h2b, option_bind_some] at h
        simp only [Option.some.injEq, Prod.mk.injEq] at h
        obtain ⟨hm, hr⟩ := h
        obtain ⟨hs2, hmap2⟩ := litIC_append _ r1 m2 r2 h2b
        subst hm
        subst hr
        refine ⟨by rw [hs1, hs2, List.append_assoc], Or.inr ?_⟩
        rw [List.map_append, hmap1, hmap2]
        rfl

/-- Every full match of the valid-URL pattern starts with a case-variant
of an `https://` or `http://` scheme. -/
theorem matchValidFrom_scheme (s m r : List Char)
    (h : matchValidFrom s = some (m, r)) :
    ∃ m1 t, m = m1 ++ t ∧ (m1.map Char.toLower = lstr "https://" ∨
      m1.map Char.toLower = lstr "http://") := by
  unfold matchValidFrom at h
  cases h1 : matchScheme s with
  | none =>
    rw [h1] at h
    simp at h
  | some mr1 =>
    obtain ⟨m1, r1⟩ := mr1
    rw [h1, option_bind_some] at h
    replace h : (matchOptSubThen (lstr "pcpartpicker.com/") r1 >>=
        fun mr2 => (matchListBranch mr2.2 <|> matchUserBranch mr2.2 <|>
          matchBuildBranch mr2.2 <|> matchGuideBranch mr2.2) >>=
            fun mr3 => some (m1 ++ mr2.1 ++ mr3.1, mr3.2)) = some (m, r) := h
    cases h2 : matchOptSubThen (lstr "pcpartpicker.com/") r1 with
    | none =>
      rw [h2] at h
      simp at h
    | some mr2 =>
      obtain ⟨m2, r2⟩ := mr2
      rw [h2, option_bind_some] at h
      cases h3 : (matchListBranch r2 <|> matchUserBranch r2 <|>
          matchBuildBranch r2 <|> matchGuideBranch r2) with
      | none =>
        simp only [h3, option_bind_none] at h
        exact absurd h (by simp)
      | some mr3 =>
        obtain ⟨m3, r3⟩ := mr3
        simp only [h3, option_bind_some, Option.some.injEq,
          Prod.mk.injEq] at h
        obtain ⟨hm, _⟩ := h
        refine ⟨m1, m2 ++ m3, ?_, (matchScheme_shape s m1 r1 h1).2⟩
        rw [← hm, List.append_assoc]

/-- Every string collected by the findall scan is the text of a match of
the valid-URL pattern at some position. -/
theorem findAllValid_mem (fuel : Nat) :
    ∀ (s : List Char) (u : String), u ∈ findAllValid fuel s →
      ∃ t m r, matchValidFrom t = some (m, r) ∧ u = String.mk m := by
  induction fuel with
  | zero =>
    intro s u h
    simp [findAllValid] at h
  | succ f ih =>
    intro s u h
    cases s with
    | nil => simp [findAllValid] at h
    | cons c cs =>
      rw [findAllValid] at h
      cases hm : matchValidFrom (c :: cs) with
      | some mr =>
        obtain ⟨m, r⟩ := mr
        rw [hm] at h
        rcases List.mem_cons.mp h with rfl | htail
        · exact ⟨c :: cs, m, r, hm, rfl⟩
        · exact ih r u htail
      | none =>
        rw [hm] at h
        exact ih cs u h

/-- Replacing the scheme: on any string that starts with a case-variant of
`https://` or `http://`, the normalisation yields a string literally
starting with `https://`. -/
theorem normalizeScheme_https (m1 t : List Char)
    (h : m1.map Char.toLower = lstr "https://" ∨
      m1.map Char.toLower = lstr "http://") :
    ∃ t2, normalizeScheme (m1 ++ t) = lstr "https://" ++ t2 := by
  rcases h with h | h
  · have hlen : m1.length = 8 := by
      have h2 := congrArg List.length h
      simpa using h2
    refine ⟨t, ?_⟩
    unfold normalizeScheme
    rw [if_pos (by rw [List.take_left' hlen, h]), List.drop_left' hlen]
  · have hlen : m1.length = 7 := by
      have h2 := congrArg List.length h
      simpa using h2
    have hfalse : ¬ ((m1 ++ t).take 8).map Char.toLower = lstr "https://" := by
      intro hcontra
      have h5 : (((m1 ++ t).take 8).map Char.toLower).take 5 =
          (lstr "https://").take 5 := by rw [hcontra]
      rw [List.map_take, List.take_take, List.map_append, h] at h5
      rw [show min 5 8 = 5 from rfl,
        List.take_append_of_le_length (by decide)] at h5
      exact absurd h5 (by decide)
    refine ⟨t, ?_⟩
    unfold normalizeScheme
    rw [if_neg hfalse, if_pos (by rw [List.take_left' hlen, h]),
      List.drop_left' hlen]

/-- `dict.fromkeys` yields a duplicate-free list. -/
theorem dedupFirstSeen_nodup (xs : List String) :
    ∀ seen, (dedupFirstSeen xs seen).Nodup := by
  induction xs with
  | nil => intro seen; simp [dedupFirstSeen]
  | cons x rest ih =>
    intro seen
    by_cases hx : x ∈ seen
    · rw [dedupFirstSeen, if_pos hx]
      exact ih seen
    · rw [dedupFirstSeen, if_neg hx]
      refine List.nodup_cons.mpr ⟨?_, ih (x :: seen)⟩
      intro hmem
      exact ((dedupFirstSeen_mem rest x (x :: seen)).mp hmem).2
        (List.mem_cons_self x seen)

/-- The `.replace("#view=", "")` scan copies any hash-free prefix
verbatim (every occurrence of the pattern starts with `#`). -/
theorem removeAllSub_keep_prefix (pre : List Char)
    (hpre : ∀ c ∈ pre, c ≠ '#') :
    ∀ (fuel : Nat) (t : List Char),
      ∃ u, removeAllSub (lstr "#view=") fuel (pre ++ t) = pre ++ u := by
  induction pre with
  | nil =>
    intro fuel t
    exact ⟨removeAllSub (lstr "#view=") fuel t, rfl⟩
  | cons c cs ih =>
    intro fuel t
    cases fuel with
    | zero => exact ⟨t, rfl⟩
    | succ f =>
      have hc : c ≠ '#' := hpre c (List.mem_cons_self c cs)
      have hbe : (('#' : Char) == c) = false :=
        beq_eq_false_iff_ne.mpr (Ne.symm hc)
      have hnp : (lstr "#view=").isPrefixOf (c :: (cs ++ t)) = false := by
        show (('#' :: lstr "view=").isPrefixOf (c :: (cs ++ t))) = false
        simp [List.isPrefixOf, hbe]
      obtain ⟨u, hu⟩ := ih (fun d hd => hpre d (List.mem_cons_of_mem c hd)) f t
      refine ⟨u, ?_⟩
      show (if (lstr "#view=").isPrefixOf (c :: (cs ++ t)) then
          removeAllSub (lstr "#view=") f (((c :: (cs ++ t))).drop
            (lstr "#view=").length)
        else c :: removeAllSub (lstr "#view=") f (cs ++ t)) = (c :: cs) ++ u
      rw [hnp]
      show c :: removeAllSub (lstr "#view=") f (cs ++ t) = (c :: cs) ++ u
      rw [hu]
      rfl

/-- Claim C5 as amended: extraction deduplicates the RAW matched URLs
(before normalisation) preserving first-seen order — the dedup list is a
duplicate-free subsequence of the matches containing exactly their
distinct set — and then normalises each one (scheme rewritten to https,
`#view=` marker removed), so the result has at most as many entries as
there were matches and every returned URL literally starts with
`https://`; two raw matches that differ only before normalisation (e.g.
http vs https) can still normalise to two equal entries. -/
theorem C5_extract_amended (content : String) :
    extract_unique_pcpp_urls content =
      (dedupFirstSeen (findall_valid_urls content) []).map pyNormalizeUrl ∧
    (dedupFirstSeen (findall_valid_urls content) []).Sublist
      (findall_valid_urls content) ∧
    (dedupFirstSeen (findall_valid_urls content) []).Nodup ∧
    (∀ u, u ∈ dedupFirstSeen (findall_valid_urls content) [] ↔
      u ∈ findall_valid_urls content) ∧
    (extract_unique_pcpp_urls content).length ≤
      (findall_valid_urls content).length ∧
    (∀ v, v ∈ extract_unique_pcpp_urls content →
      ∃ t2, v.toList = lstr "https://" ++ t2) := by
  refine ⟨rfl, dedupFirstSeen_sublist _ _, dedupFirstSeen_nodup _ _, ?_, ?_, ?_⟩
  · intro u
    rw [dedupFirstSeen_mem]
    simp
  · show ((dedupFirstSeen (findall_valid_urls content) []).map
      pyNormalizeUrl).length ≤ _
    rw [List.length_map]
    exact (dedupFirstSeen_sublist _ _).length_le
  · intro v hv
    obtain ⟨u, hu, rfl⟩ := List.mem_map.mp hv
    have hufind : u ∈ findall_valid_urls content :=
      ((dedupFirstSeen_mem _ _ _).mp hu).1
    obtain ⟨t, m, r, hmatch, rfl⟩ :=
      findAllValid_mem content.toList.length content.toList u hufind
    obtain ⟨m1, t1, hm, hsch⟩ := matchValidFrom_scheme t m r hmatch
    obtain ⟨t2, ht2⟩ : ∃ t2, normalizeScheme m = lstr "https://" ++ t2 := by
      rw [hm]
      exact normalizeScheme_https m1 t1 hsch
    have hview : (pyNormalizeUrl (String.mk m)).toList =
        removeAllSub (lstr "#view=") (normalizeScheme m).length
          (normalizeScheme m) := rfl
    rw [hview, ht2]
    exact removeAllSub_keep_prefix (lstr "https://") (by decide) _ t2

end Palbuild
